import Mathlib

/-!
Verification development for the Suntime Inbox Copilot service (`src/main.py`).

The Python source is shallowly embedded: pure text helpers become Lean
functions on `String`/`List Char`; the JSON values exchanged with the
Shopify catalog become the inductive type `JVal`; code that can raise is
modelled with `Except String`; the two external collaborators (OpenAI and
the Shopify HTTP transport) are parameters of the functions that call them.
-/

namespace Suntime

/-- Whitespace characters recognised by Python's `str.split()` / `str.strip()`
(ASCII subset; the source never feeds other whitespace). -/
def isWs (c : Char) : Bool :=
  c = ' ' || c = '\t' || c = '\n' || c = '\r' || c = '\x0b' || c = '\x0c'

/-- Case mapping used by Python's `str.lower()` on the character repertoire
relevant to this program: ASCII letters plus the accented Spanish letters. -/
def lowerMap : List (Char × Char) :=
  [('A','a'),('B','b'),('C','c'),('D','d'),('E','e'),('F','f'),('G','g'),
   ('H','h'),('I','i'),('J','j'),('K','k'),('L','l'),('M','m'),('N','n'),
   ('O','o'),('P','p'),('Q','q'),('R','r'),('S','s'),('T','t'),('U','u'),
   ('V','v'),('W','w'),('X','x'),('Y','y'),('Z','z'),
   ('Á','á'),('É','é'),('Í','í'),('Ó','ó'),('Ú','ú'),('Ü','ü'),('Ñ','ñ')]

/-- `str.lower()`, character by character (Python lower-cases pointwise on
this repertoire). Characters outside the table are unchanged. -/
def pyLowerChar (c : Char) : Char :=
  match lowerMap.find? (fun p => p.1 == c) with
  | some p => p.2
  | none => c

def pyLower (s : String) : String := String.mk (s.toList.map pyLowerChar)

/-- NFD decomposition followed by removal of combining marks (category `Mn`),
as performed by `strip_accents` in the source, restricted to the Spanish
repertoire: each accented letter decomposes to its base letter, and bare
combining marks disappear. Other characters are left alone. -/
def accentTable : List (Char × List Char) :=
  [('á',['a']),('é',['e']),('í',['i']),('ó',['o']),('ú',['u']),('ü',['u']),('ñ',['n']),
   ('Á',['A']),('É',['E']),('Í',['I']),('Ó',['O']),('Ú',['U']),('Ü',['U']),('Ñ',['N']),
   ('̀',[]),('́',[]),('̃',[]),('̈',[])]

def stripAccentChar (c : Char) : List Char :=
  match accentTable.find? (fun p => p.1 == c) with
  | some p => p.2
  | none => [c]

/-- `strip_accents(s)`: `"".join(c for c in unicodedata.normalize("NFD", s)
if unicodedata.category(c) != "Mn")`. -/
def strip_accents (s : String) : String :=
  String.mk (s.toList.flatMap stripAccentChar)

/-- `s.replace(a, b)` for single-character `a`, `b` (pointwise). -/
def replaceChar (s : String) (a b : Char) : String :=
  String.mk (s.toList.map (fun c => if c = a then b else c))

/-- `s.replace(a, "")` for a single-character `a` (deletes every occurrence). -/
def removeChar (s : String) (a : Char) : String :=
  String.mk (s.toList.filter (fun c => !(c = a)))

/-- `str.strip()`: drop leading and trailing whitespace. -/
def pyStrip (s : String) : String :=
  String.mk (((s.toList.dropWhile isWs).reverse.dropWhile isWs).reverse)

/-- Accumulator-based splitter behind `pySplitWs` (structural recursion so
that concrete inputs evaluate inside the kernel). -/
def splitWsAux (acc : List Char) : List Char → List (List Char)
  | [] => if acc.isEmpty then [] else [acc.reverse]
  | c :: cs =>
    if isWs c then
      if acc.isEmpty then splitWsAux [] cs else acc.reverse :: splitWsAux [] cs
    else splitWsAux (c :: acc) cs

/-- `str.split()` with no argument: split on runs of whitespace, never
producing empty chunks. -/
def pySplitWs (l : List Char) : List (List Char) := splitWsAux [] l

def pySplitWsStr (s : String) : List String := (pySplitWs s.toList).map String.mk

/-- `STOPWORDS_ES` from the source (a Python set literal; the duplicate
`"modelo"` is kept as written — membership is unaffected). -/
def STOPWORDS_ES : List String :=
  ["busco","buscar","quisiera","quiero","deseo","me","para","de","del","la","el","los","las",
   "un","una","unos","unas","por","con","color","talla","modelo","hombre","mujer","niño","niña",
   "porfa","porfavor","favor","tipo","marca","modelo","reloj","lentes","gafas"]

/-- The local `t`/cleaned text of `normalize_terms`:
`strip_accents(text.lower()).replace(",", " ").replace(".", " ")`. -/
def normalizeCleaned (text : String) : String :=
  replaceChar (replaceChar (strip_accents (pyLower text)) ',' ' ') '.' ' '

/-- The local `tokens` of `normalize_terms`:
`[w for w in cleaned.split() if w]`. -/
def normalizeTokens (text : String) : List String :=
  (pySplitWsStr (normalizeCleaned text)).filter (fun w => !(w = ""))

/-- The filter applied by the `for w in tokens` loop of `normalize_terms`:
stopwords are skipped, then tokens of length ≤ 2 are skipped. -/
def usefulToken (w : String) : Bool :=
  if STOPWORDS_ES.contains w then false
  else if w.length ≤ 2 then false
  else true

/-- `normalize_terms(text)`: lower-case, strip accents, turn commas/periods
into spaces, split on whitespace, drop stopwords and tokens of length ≤ 2,
keep the first 5 survivors. -/
def normalize_terms (text : String) : List String :=
  ((normalizeTokens text).filter usefulToken).take 5

/-- `BRAND_HINTS` from the source (a Python set; modelled as a list, membership
is what matters). -/
def BRAND_HINTS : List String :=
  ["invicta","ray-ban","rayban","oakley","new","era","g-shock","gshock","festina",
   "tommy","hilfiger","vans","polaroid"]

/-- The set of two-word brand phrases merged by `build_shopify_query`. -/
def mergePhrases : List String := ["ray ban","new era","g shock","tommy hilfiger"]

/-- The disjunction group built for one (possibly merged) term, after the
`w = w.replace('"', '')` quote-stripping: `title:"w*" OR tag:"w"`, plus
`vendor:"w"` when `any(tok in BRAND_HINTS for tok in w.split())`. -/
def mkGroup (w : String) : String :=
  let base := ["title:\"" ++ w ++ "*\"", "tag:\"" ++ w ++ "\""]
  let group := if (pySplitWsStr w).any (fun tok => BRAND_HINTS.contains tok)
    then base ++ ["vendor:\"" ++ w ++ "\""]
    else base
  "(" ++ String.intercalate " OR " group ++ ")"

/-- The `while i < len(terms)` loop of `build_shopify_query`: two-token
lookahead, merging a recognised brand phrase and advancing the cursor by two,
otherwise emitting a single-token group and advancing by one. -/
def buildParts : List String → List String
  | [] => []
  | [w] => [mkGroup (removeChar w '"')]
  | w :: w2 :: rest =>
    let pair := w ++ " " ++ w2
    if mergePhrases.contains pair then
      mkGroup (removeChar pair '"') :: buildParts rest
    else
      mkGroup (removeChar w '"') :: buildParts (w2 :: rest)

/-- `build_shopify_query(terms)`: empty input yields the empty expression,
otherwise the groups are joined with `" AND "`. -/
def build_shopify_query (terms : List String) : String :=
  if terms = [] then "" else String.intercalate " AND " (buildParts terms)

/-- Spec-side reading of a query group, used to settle C3: the merge step
yields either a single token or a merged pair of consecutive tokens. -/
inductive SpecTerm where
  | single (w : String)
  | merged (a b : String)
deriving DecidableEq

/-- Spec-side merge pass ("iterate terms with a two-token lookahead; a
recognised brand phrase merges into one term and advances by two"). -/
def specMerge : List String → List SpecTerm
  | [] => []
  | [w] => [.single w]
  | w :: w2 :: rest =>
    if mergePhrases.contains (w ++ " " ++ w2) then
      .merged w w2 :: specMerge rest
    else
      .single w :: specMerge (w2 :: rest)

/-- Group text as the spec describes it: `(title:"w*" OR tag:"w")`, extended
with ` OR vendor:"w"` exactly under the stated brand-hint condition. -/
def specGroupText (w : String) (vend : Bool) : String :=
  "(" ++ String.intercalate " OR "
    (["title:\"" ++ w ++ "*\"", "tag:\"" ++ w ++ "\""] ++
      (if vend then ["vendor:\"" ++ w ++ "\""] else [])) ++ ")"

/-- Spec-side rendering of one (possibly merged) term: quote characters are
stripped before embedding; the vendor clause is added exactly when the term
(or either half of a merged phrase) is in the brand-hint set. -/
def specGroupOf : SpecTerm → String
  | .single w =>
    let w' := removeChar w '"'
    specGroupText w' (BRAND_HINTS.contains w')
  | .merged a b =>
    let w' := removeChar (a ++ " " ++ b) '"'
    specGroupText w' (BRAND_HINTS.contains a || BRAND_HINTS.contains b)

/-- A string free of Python `str.split()` whitespace (tokens produced by
`normalize_terms` always are). -/
def wsFree (s : String) : Bool := s.toList.all (fun c => !isWs c)

/-- JSON-ish values exchanged with the catalog collaborator (the decoded
`resp.json()` payload and everything extracted from it). -/
inductive JVal where
  | jnull
  | jbool (b : Bool)
  | jnum (q : ℚ)
  | jstr (s : String)
  | jarr (elems : List JVal)
  | jobj (fields : List (String × JVal))

/-- Dictionary lookup on the fields of a JSON object. -/
def jLookup (fields : List (String × JVal)) (k : String) : Option JVal :=
  (fields.find? (fun p => p.1 == k)).map (fun p => p.2)

/-- Python truthiness of a decoded JSON value (`if not products`). -/
def jTruthy : JVal → Bool
  | .jnull => false
  | .jbool b => b
  | .jnum q => !(q.num == 0)
  | .jstr s => !(s == "")
  | .jarr xs => !xs.isEmpty
  | .jobj fs => !fs.isEmpty

/-- Python subscript `v[k]` with a string key: `KeyError` on a missing key,
`TypeError` on a non-object. -/
def jGetItem (v : JVal) (k : String) : Except String JVal :=
  match v with
  | .jobj fs =>
    match jLookup fs k with
    | some x => .ok x
    | none => .error ("KeyError: '" ++ k ++ "'")
  | _ => .error "TypeError: value is not subscriptable by a string key"

/-- Python subscript `v[i]` with an integer index. -/
def jIndex (v : JVal) (i : Nat) : Except String JVal :=
  match v with
  | .jarr xs =>
    match xs[i]? with
    | some x => .ok x
    | none => .error "IndexError: list index out of range"
  | .jstr s =>
    match s.toList[i]? with
    | some c => .ok (.jstr (String.mk [c]))
    | none => .error "IndexError: string index out of range"
  | _ => .error "TypeError: value is not subscriptable by an integer"

/-- Python `v.get(k, d)`: defaulted lookup on objects, `AttributeError` on
anything else. -/
def jGetDefault (v : JVal) (k : String) (d : JVal) : Except String JVal :=
  match v with
  | .jobj fs => .ok ((jLookup fs k).getD d)
  | _ => .error "AttributeError: value has no method get"

/-- Substring test on character lists (for Python `k in s` on strings). -/
def hasSub (pat : List Char) : List Char → Bool
  | [] => pat.isEmpty
  | c :: rest => pat.isPrefixOf (c :: rest) || hasSub pat rest

/-- Python membership `k in v` for a string `k`: key test on objects, element
test on arrays, substring test on strings, `TypeError` otherwise. -/
def pyContains (v : JVal) (k : String) : Except String Bool :=
  match v with
  | .jobj fs => .ok (jLookup fs k).isSome
  | .jarr xs => .ok (xs.any (fun e => match e with | .jstr s => s == k | _ => false))
  | .jstr s => .ok (hasSub k.toList s.toList)
  | _ => .error "TypeError: argument of type is not a container"

/-- Decimal rendering of a numeric JSON value inside a message. Only the
integral case is ever observable in this development; non-integral values are
rendered as a fraction. -/
def ratStr (q : ℚ) : String :=
  if q.den = 1 then toString q.num else toString q.num ++ "/" ++ toString q.den

/-- Python `repr` of a decoded JSON value, used by `str` on containers (string
escaping inside containers is not modelled; no claim observes it). -/
def pyRepr : JVal → String
  | .jnull => "None"
  | .jbool true => "True"
  | .jbool false => "False"
  | .jnum q => ratStr q
  | .jstr s => "'" ++ s ++ "'"
  | .jarr xs => "[" ++ String.intercalate ", " (xs.attach.map (fun e => pyRepr e.1)) ++ "]"
  | .jobj fs =>
    "\x7b" ++
      String.intercalate ", "
        (fs.attach.map (fun p => "'" ++ p.1.1 ++ "': " ++ pyRepr p.1.2)) ++ "\x7d"
termination_by v => sizeOf v
decreasing_by
  · have h := List.sizeOf_lt_of_mem e.2
    simp_wf
    omega
  · have h := List.sizeOf_lt_of_mem p.2
    obtain ⟨⟨a, b⟩, hm⟩ := p
    simp_wf
    simp only [Prod.mk.sizeOf_spec] at h
    omega

/-- Python `str` of a decoded JSON value (as interpolated by f-strings). -/
def pyStr : JVal → String
  | .jstr s => s
  | v => pyRepr v

/-- Round `n / d` (with `d > 0`) to the nearest integer, ties to even —
the rounding used by Python's fixed-point float formatting. -/
def roundHalfEvenNat (n d : Nat) : Nat :=
  let q := n / d
  let r := n % d
  if 2 * r < d then q else if d < 2 * r then q + 1 else if q % 2 = 0 then q else q + 1

/-- Insert a comma after every third character of a reversed digit string. -/
def group3 : List Char → List Char
  | a :: b :: c :: d :: rest => a :: b :: c :: ',' :: group3 (d :: rest)
  | l => l

/-- Thousands grouping of a decimal digit string, as in `format(n, ",d")`. -/
def groupDigits (s : String) : String := String.mk ((group3 s.toList.reverse).reverse)

/-- Render a two-digit fraction-of-unit field with a leading zero. -/
def twoDigit (f : Nat) : String := (if f < 10 then "0" else "") ++ toString f

/-- Python `format(x, ",.2f")` on an exact rational: two decimals rounded
half-to-even, thousands separated by commas. (CPython formats the double
nearest to the value; every value observed here is exactly representable.) -/
def pyFormat2f (x : ℚ) : String :=
  let cents := roundHalfEvenNat (x.num.natAbs * 100) x.den
  (if x.num < 0 then "-" else "") ++
    groupDigits (toString (cents / 100)) ++ "." ++ twoDigit (cents % 100)

/-- Decimal value of a digit list (most significant first). -/
def digitsVal (l : List Char) : Nat := l.foldl (fun n c => n * 10 + (c.toNat - 48)) 0

/-- Unsigned part of Python `float(str)` for plain decimal literals
(`"12"`, `"12.5"`, `".5"`, `"12."`). Exponent forms, `inf` and `nan` are
outside the domain this program observes. -/
def parseUnsigned? (l : List Char) : Option ℚ :=
  let ip := l.takeWhile Char.isDigit
  let rest := l.dropWhile Char.isDigit
  match rest with
  | [] => if ip.isEmpty then none else some (mkRat (digitsVal ip) 1)
  | '.' :: fp =>
    if fp.all Char.isDigit && !(ip.isEmpty && fp.isEmpty) then
      some (mkRat (digitsVal ip * 10 ^ fp.length + digitsVal fp) (10 ^ fp.length))
    else none
  | _ => none

/-- Python `float(str)`: optional surrounding whitespace and sign around an
unsigned decimal literal; `none` models a raised `ValueError`. -/
def parseFloat? (s : String) : Option ℚ :=
  let l := ((s.toList.dropWhile isWs).reverse.dropWhile isWs).reverse
  match l with
  | '+' :: r => parseUnsigned? r
  | '-' :: r => (parseUnsigned? r).map Neg.neg
  | _ => parseUnsigned? l

/-- Python `float(v)` on a decoded JSON value; `none` models a raised
`TypeError`/`ValueError`. (`float(True) = 1.0`, `float(None)` raises.) -/
def pyFloat? : JVal → Option ℚ
  | .jnum q => some q
  | .jbool b => some (if b then 1 else 0)
  | .jstr s => parseFloat? s
  | _ => none

/-- `format_price(v)`: `f"S/ {float(v):,.2f}"` with `,`/`.` swapped via the
three `replace` calls, and the fixed `"S/ —"` placeholder when conversion
fails. -/
def format_price (v : JVal) : String :=
  match pyFloat? v with
  | some x =>
    replaceChar (replaceChar (replaceChar ("S/ " ++ pyFormat2f x) ',' 'X') '.' ',') 'X' '.'
  | none => "S/ —"

/-- `STOREFRONT_BASE` from the source. -/
def STOREFRONT_BASE : String := "https://suntimestore.com"

/-- One iteration of the `for e in edges[:3]` loop of `format_products`:
`n = e["node"]` and the `.get` calls can raise; the variant-price chain is
wrapped in `try/except` with the `"—"` default. -/
def format_one (e : JVal) : Except String String := do
  let n ← jGetItem e "node"
  let title ← jGetDefault n "title" (.jstr "Producto")
  let handle ← jGetDefault n "handle" (.jstr "")
  let osu ← jGetDefault n "onlineStoreUrl" .jnull
  let url :=
    if jTruthy osu then pyStr osu
    else if jTruthy handle then STOREFRONT_BASE ++ "/products/" ++ pyStr handle
    else STOREFRONT_BASE
  let price :=
    match (do
      let v1 ← jGetItem n "variants"
      let v2 ← jGetItem v1 "edges"
      let v3 ← jIndex v2 0
      let v4 ← jGetItem v3 "node"
      jGetItem v4 "price") with
    | .ok p => p
    | .error _ => .jstr "—"
  pure ("• " ++ pyStr title ++ " — " ++ format_price price ++ "\n  " ++ url)

/-- Python slicing `v[:3]` (`TypeError` on unsliceable values). -/
def pySlice3 (v : JVal) : Except String (List JVal) :=
  match v with
  | .jarr xs => .ok (xs.take 3)
  | .jstr s => .ok ((s.toList.take 3).map (fun c => .jstr (String.mk [c])))
  | _ => .error "TypeError: value is not sliceable"

/-- `format_products(edges)`: format at most the first three items and join
with a blank line. An error models an exception escaping the loop. -/
def format_products (v : JVal) : Except String String := do
  let edges ← pySlice3 v
  let lines ← edges.mapM format_one
  pure (String.intercalate "\n\n" lines)

/-- Behaviour of the configured OpenAI collaborator on the single call the
source makes: either a response whose `output_text` is `None` or a string, or
a raised exception (`OpenAIError` and any other exception are caught alike). -/
inductive LMBehavior where
  | success (output_text : Option String)
  | failure
deriving DecidableEq

/-- `intent_from_openai(user_text)`, parameterised by the collaborator:
`none` models the unconfigured client (`oai is None`). Returns the resulting
intent together with the number of OpenAI call attempts made. -/
def intent_from_openai (oai : Option LMBehavior) (user_text : String) : String × Nat :=
  match oai with
  | none => (user_text, 0)
  | some .failure => (user_text, 1)
  | some (.success o) =>
    let intent := pyLower (pyStrip (o.getD ""))
    (if intent = "" then user_text else intent, 1)

/-- The term list `shopify_query` feeds to `build_shopify_query`: a second
normalisation pass over `strip_accents(q)` when the first yields nothing. -/
def shopify_query_terms (q : String) : List String :=
  let terms := normalize_terms q
  if terms = [] then normalize_terms (strip_accents q) else terms

/-- Processing of the transport outcome inside `shopify_query`: a transport
error propagates; a decoded body with an `"errors"` key raises `RuntimeError`;
otherwise the edges are extracted with defaulted `get` chains and `or []`. -/
def shopifyHandleResp : Except String JVal → Except String JVal
  | .error e => .error e
  | .ok data => do
    let hasErr ← pyContains data "errors"
    if hasErr then do
      let ev ← jGetItem data "errors"
      Except.error ("GraphQL errors: " ++ pyStr ev)
    else do
      let d1 ← jGetDefault data "data" (.jobj [])
      let d2 ← jGetDefault d1 "products" (.jobj [])
      let d3 ← jGetDefault d2 "edges" (.jarr [])
      pure (if jTruthy d3 then d3 else .jarr [])

/-- `shopify_query(q)`, parameterised by the configuration flag and the HTTP
transport (`requests.post` + `raise_for_status` + `.json()`; an error is a
raised transport exception). Returns the outcome together with the list of
GraphQL query strings posted. -/
def shopify_query (configured : Bool) (post : String → Except String JVal)
    (q : String) : Except String JVal × List String :=
  if !configured then
    (.error "Shopify no configurado (dominio o token faltante).", [])
  else
    let gql := build_shopify_query (shopify_query_terms q)
    (shopifyHandleResp (post gql), [gql])

/-- The fixed empty-input prompt of `chat_intent`. -/
def promptMsg : String :=
  "¿Qué estás buscando? Ejemplo: 'reloj Invicta dorado' o 'lentes Ray-Ban mujer polarizado'."

/-- The fixed apology returned when the first catalog lookup raises. -/
def apologyMsg (e : String) : String :=
  "⚠️ No pude consultar Shopify (" ++ e ++ "). Verifica dominio/token y vuelve a intentar."

/-- The fixed no-results message echoing the resolved intent. -/
def noResultsMsg (intent : String) : String :=
  "No encontré resultados para “" ++ intent ++ "”. ¿Buscamos otra marca o estilo parecido?"

/-- The final composed success message. -/
def finalMsg (intent listado : String) : String :=
  "✨ Esto es lo más cercano a lo que buscas (" ++ intent ++ "):\n\n" ++ listado ++
    "\n\n¿Quieres que te recomiende según precio o color? 🎁 *Tip:* si es tu primera compra, usa **SUNTIME10%** para 10% de descuento."

/-- `chat_intent(data)`, parameterised by the OpenAI collaborator and the
catalog lookup (attempt number, then input text; an `Except.error` is a raised
exception). The first component is the endpoint outcome — `Except.error`
models an exception escaping the handler — and the second lists the inputs of
the catalog lookups actually performed. -/
def chat_intent (oai : Option LMBehavior) (catalog : Nat → String → Except String JVal)
    (message : String) : Except String String × List String :=
  let user_text := pyStrip message
  if user_text = "" then (.ok promptMsg, [])
  else
    let intent := (intent_from_openai oai user_text).1
    match catalog 0 intent with
    | .error e => (.ok (apologyMsg e), [intent])
    | .ok prods0 =>
      if jTruthy prods0 then
        ((format_products prods0).map (finalMsg intent), [intent])
      else
        match catalog 1 user_text with
        | .error _ => (.ok (noResultsMsg intent), [intent, user_text])
        | .ok p2 =>
          if jTruthy p2 then
            ((format_products p2).map (finalMsg intent), [intent, user_text])
          else (.ok (noResultsMsg intent), [intent, user_text])

/-- A character left unchanged by both `str.lower()` and accent stripping. -/
def fixedChar (c : Char) : Prop := pyLowerChar c = c ∧ stripAccentChar c = [c]

instance (c : Char) : Decidable (fixedChar c) := by
  unfold fixedChar
  infer_instance

/-- An edge item `format_products` can process without raising: an object
whose `"node"` field is present and is itself an object. -/
def wellFormedEdge (e : JVal) : Prop :=
  ∃ fs nf, e = JVal.jobj fs ∧ jLookup fs "node" = some (JVal.jobj nf)

/-- A catalog result the orchestrator can always turn into a response: a list
of well-formed edge items (the shape promised by the collaborator interface). -/
def wellFormedResult (v : JVal) : Prop :=
  ∃ xs, v = JVal.jarr xs ∧ ∀ e ∈ xs, wellFormedEdge e

theorem pyLowerChar_of_find {c : Char} {p : Char × Char}
    (h : lowerMap.find? (fun x => x.1 == c) = some p) : pyLowerChar c = p.2 := by
  unfold pyLowerChar
  rw [h]

theorem pyLowerChar_of_none {c : Char}
    (h : lowerMap.find? (fun x => x.1 == c) = none) : pyLowerChar c = c := by
  unfold pyLowerChar
  rw [h]

theorem stripAccentChar_of_find {c : Char} {p : Char × List Char}
    (h : accentTable.find? (fun x => x.1 == c) = some p) : stripAccentChar c = p.2 := by
  unfold stripAccentChar
  rw [h]

theorem stripAccentChar_of_none {c : Char}
    (h : accentTable.find? (fun x => x.1 == c) = none) : stripAccentChar c = [c] := by
  unfold stripAccentChar
  rw [h]

theorem lowerMap_out_fixed :
    ∀ p ∈ lowerMap, ∀ d ∈ stripAccentChar p.2, fixedChar d := by decide

theorem accentTable_out_fixed :
    ∀ p ∈ accentTable, lowerMap.find? (fun x => x.1 == p.1) = none →
      ∀ d ∈ p.2, fixedChar d := by decide

/-- Every character produced by lower-casing followed by accent stripping is
left unchanged by a further application of either. -/
theorem charFixed (c : Char) : ∀ d ∈ stripAccentChar (pyLowerChar c), fixedChar d := by
  intro d hd
  cases hf : lowerMap.find? (fun x => x.1 == c) with
  | some p =>
    rw [pyLowerChar_of_find hf] at hd
    exact lowerMap_out_fixed p (List.mem_of_find?_eq_some hf) d hd
  | none =>
    rw [pyLowerChar_of_none hf] at hd
    cases hf2 : accentTable.find? (fun x => x.1 == c) with
    | some q =>
      rw [stripAccentChar_of_find hf2] at hd
      have hbeq := List.find?_some hf2
      have hq1 : q.1 = c := by
        simp only [] at hbeq
        exact eq_of_beq hbeq
      exact accentTable_out_fixed q (List.mem_of_find?_eq_some hf2) (hq1 ▸ hf) d hd
    | none =>
      rw [stripAccentChar_of_none hf2] at hd
      simp only [List.mem_singleton] at hd
      subst hd
      exact ⟨pyLowerChar_of_none hf, stripAccentChar_of_none hf2⟩

theorem map_id_of_fixed {α : Type} (f : α → α) (l : List α) (h : ∀ x ∈ l, f x = x) :
    l.map f = l := by
  induction l with
  | nil => rfl
  | cons a t ih =>
    simp only [List.map_cons, h a (by simp)]
    rw [ih (fun x hx => h x (by simp [hx]))]

theorem flatMap_id_of_fixed {α : Type} (f : α → List α) (l : List α)
    (h : ∀ x ∈ l, f x = [x]) : l.flatMap f = l := by
  induction l with
  | nil => rfl
  | cons a t ih =>
    simp only [List.flatMap_cons, h a (by simp)]
    rw [ih (fun x hx => h x (by simp [hx]))]
    rfl

theorem flatMap_congr_of_eq {α β : Type} (f g : α → List β) (l : List α)
    (h : ∀ x ∈ l, f x = g x) : l.flatMap f = l.flatMap g := by
  induction l with
  | nil => rfl
  | cons a t ih =>
    simp only [List.flatMap_cons, h a (by simp)]
    rw [ih (fun x hx => h x (by simp [hx]))]

/-- Characters of any chunk produced by the splitter come from the input (or
the accumulator). -/
theorem splitWsAux_chars :
    ∀ (l acc : List Char), ∀ w ∈ splitWsAux acc l, ∀ c ∈ w, c ∈ l ∨ c ∈ acc := by
  intro l
  induction l with
  | nil =>
    intro acc w hw c hc
    unfold splitWsAux at hw
    by_cases h : acc.isEmpty
    · simp [h] at hw
    · simp [h] at hw
      subst hw
      exact Or.inr (List.mem_reverse.mp hc)
  | cons a t ih =>
    intro acc w hw c hc
    unfold splitWsAux at hw
    by_cases ha : isWs a
    · simp only [ha, if_true] at hw
      by_cases he : acc.isEmpty
      · simp only [he, if_true] at hw
        rcases ih [] w hw c hc with h | h
        · exact Or.inl (List.mem_cons_of_mem a h)
        · simp at h
      · simp only [he, if_false] at hw
        rcases List.mem_cons.mp hw with h | h
        · subst h
          exact Or.inr (List.mem_reverse.mp hc)
        · rcases ih [] w h c hc with h2 | h2
          · exact Or.inl (List.mem_cons_of_mem a h2)
          · simp at h2
    · simp only [ha, if_false] at hw
      rcases ih (a :: acc) w hw c hc with h | h
      · exact Or.inl (List.mem_cons_of_mem a h)
      · rcases List.mem_cons.mp h with h2 | h2
        · exact Or.inl (h2 ▸ List.mem_cons_self a t)
        · exact Or.inr h2

/-- On whitespace-free input the splitter returns the input as the single
chunk (or nothing, when the input is empty). -/
theorem splitWsAux_all_nonws :
    ∀ (l acc : List Char), (∀ c ∈ l, isWs c = false) →
      splitWsAux acc l =
        if (acc.reverse ++ l).isEmpty then [] else [acc.reverse ++ l] := by
  intro l
  induction l with
  | nil =>
    intro acc _
    unfold splitWsAux
    cases acc with
    | nil => simp
    | cons a t => simp
  | cons a t ih =>
    intro acc h
    unfold splitWsAux
    rw [h a (by simp)]
    simp only [Bool.false_eq_true, if_false]
    rw [ih (a :: acc) (fun c hc => h c (by simp [hc]))]
    simp [List.append_assoc]

theorem mk_toList (s : String) : String.mk s.toList = s := rfl

theorem mem_replaceChar {s : String} {a b c : Char}
    (h : c ∈ (replaceChar s a b).toList) : c = b ∨ c ∈ s.toList := by
  unfold replaceChar at h
  rw [show (String.mk (s.toList.map fun d => if d = a then b else d)).toList =
      s.toList.map (fun d => if d = a then b else d) from rfl] at h
  rcases List.mem_map.mp h with ⟨d, hd, he⟩
  by_cases hda : d = a
  · left
    rw [← he]
    simp [hda]
  · right
    rw [← he]
    simpa [hda] using hd

theorem strip_lower_chars_fixed (text : String) :
    ∀ c ∈ (strip_accents (pyLower text)).toList, fixedChar c := by
  intro c hc
  unfold strip_accents pyLower at hc
  rw [show (String.mk ((String.mk (text.toList.map pyLowerChar)).toList.flatMap
      stripAccentChar)).toList =
      (text.toList.map pyLowerChar).flatMap stripAccentChar from rfl] at hc
  rcases List.mem_flatMap.mp hc with ⟨d, hd, hcd⟩
  rcases List.mem_map.mp hd with ⟨e, _, he⟩
  subst he
  exact charFixed e c hcd

theorem cleaned_chars_fixed (text : String) :
    ∀ c ∈ (normalizeCleaned text).toList, fixedChar c := by
  intro c hc
  unfold normalizeCleaned at hc
  rcases mem_replaceChar hc with h | h
  · subst h
    decide
  · rcases mem_replaceChar h with h2 | h2
    · subst h2
      decide
    · exact strip_lower_chars_fixed text c h2

theorem normalizeTokens_chars_fixed (text : String) :
    ∀ w ∈ normalizeTokens text, ∀ c ∈ w.toList, fixedChar c := by
  intro w hw c hc
  unfold normalizeTokens pySplitWsStr pySplitWs at hw
  have hw' := List.mem_of_mem_filter hw
  rcases List.mem_map.mp hw' with ⟨lw, hlw, he⟩
  subst he
  rcases splitWsAux_chars (normalizeCleaned text).toList [] lw hlw c hc with h | h
  · exact cleaned_chars_fixed text c h
  · simp at h

/-- C2: for every input string, `normalize_terms` returns at most 5 tokens,
each of length strictly greater than 2, none in the fixed Spanish stopword
set, all lower-cased and diacritic-free (fixed points of both `str.lower()`
and `strip_accents`), and the result is a subsequence of the token stream of
the cleaned text, so tokens appear in their order of appearance there. -/
theorem c2_normalize_terms_shape (text : String) :
    (normalize_terms text).length ≤ 5 ∧
    List.Sublist (normalize_terms text) (normalizeTokens text) ∧
    (∀ w ∈ normalize_terms text,
      2 < w.length ∧ w ∉ STOPWORDS_ES ∧ pyLower w = w ∧ strip_accents w = w) := by
  refine ⟨?_, ?_, ?_⟩
  · unfold normalize_terms
    exact List.length_take_le 5 _
  · unfold normalize_terms
    exact (List.take_sublist _ _).trans (List.filter_sublist _)
  · intro w hw
    unfold normalize_terms at hw
    have hw1 : w ∈ (normalizeTokens text).filter usefulToken := List.mem_of_mem_take hw
    have hpred := List.of_mem_filter hw1
    have hmem := List.mem_of_mem_filter hw1
    have hfix := normalizeTokens_chars_fixed text w hmem
    unfold usefulToken at hpred
    simp at hpred
    refine ⟨hpred.2, hpred.1, ?_, ?_⟩
    · unfold pyLower
      rw [map_id_of_fixed pyLowerChar w.toList (fun c hc => (hfix c hc).1)]
      exact mk_toList w
    · unfold strip_accents
      rw [flatMap_id_of_fixed stripAccentChar w.toList (fun c hc => (hfix c hc).2)]
      exact mk_toList w

/-- Witness for C2 at a concrete accented input:
`normalize_terms "Perú lentes" = ["peru"]`. -/
theorem c2_normalize_terms_shape_witness :
    2 < ("peru" : String).length ∧ ("peru" : String) ∉ STOPWORDS_ES ∧
      pyLower "peru" = "peru" ∧ strip_accents "peru" = "peru" :=
  (c2_normalize_terms_shape "Perú lentes").2.2 "peru" (by decide)

/-- C4: `build_shopify_query` iterates with a two-token lookahead — when the
current token followed by the next equals a recognised two-word brand phrase
the pair is merged into one term and the cursor advances by two — and on
`["new","era","gorra","negra"]` it produces one merged-phrase group for
`"new era"` with a vendor clause followed by separate groups for `"gorra"`
and `"negra"`. -/
theorem c4_brand_phrase_merge :
    (∀ w w2 rest, mergePhrases.contains (w ++ " " ++ w2) = true →
      buildParts (w :: w2 :: rest) =
        mkGroup (removeChar (w ++ " " ++ w2) '"') :: buildParts rest) ∧
    build_shopify_query ["new", "era", "gorra", "negra"] =
      "(title:\"new era*\" OR tag:\"new era\" OR vendor:\"new era\") AND (title:\"gorra*\" OR tag:\"gorra\") AND (title:\"negra*\" OR tag:\"negra\")" := by
  constructor
  · intro w w2 rest h
    simp only [buildParts, h, if_true]
  · decide

/-- Witness for C4: the merge rule fires on `["ray","ban"]`. -/
theorem c4_brand_phrase_merge_witness :
    buildParts ["ray", "ban"] =
      mkGroup (removeChar ("ray" ++ " " ++ "ban") '"') :: buildParts [] :=
  c4_brand_phrase_merge.1 "ray" "ban" [] (by decide)

/-- C7: `format_price` renders the numeric value 1234.5 (`mkRat 2469 2`) as
`"S/ 1.234,50"` — thousands separated by periods, decimals by a comma, with
the currency prefix — and returns the fixed `"S/ —"` placeholder for `None`
and for every value whose `float(·)` conversion fails; it is a total
function, so it never raises. -/
theorem c7_format_price_localised :
    format_price (.jnum (mkRat 2469 2)) = "S/ 1.234,50" ∧
    format_price .jnull = "S/ —" ∧
    (∀ v, pyFloat? v = none → format_price v = "S/ —") := by
  refine ⟨by decide, by decide, ?_⟩
  intro v h
  unfold format_price
  rw [h]

/-- Witness for C7 at a non-numeric string value. -/
theorem c7_format_price_localised_witness : format_price (.jstr "abc") = "S/ —" :=
  c7_format_price_localised.2.2 (.jstr "abc") rfl

/-- C8: `normalize_terms "busco reloj invicta dorado" = ["invicta","dorado"]`
(`"busco"` and `"reloj"` are stopwords), and the query synthesised from those
tokens carries a vendor clause for `"invicta"`. -/
theorem c8_invicta_end_to_end :
    normalize_terms "busco reloj invicta dorado" = ["invicta", "dorado"] ∧
    build_shopify_query ["invicta", "dorado"] =
      "(title:\"invicta*\" OR tag:\"invicta\" OR vendor:\"invicta\") AND (title:\"dorado*\" OR tag:\"dorado\")" ∧
    (∃ before after, build_shopify_query ["invicta", "dorado"] =
      before ++ "vendor:\"invicta\"" ++ after) := by
  refine ⟨by decide, by decide,
    "(title:\"invicta*\" OR tag:\"invicta\" OR ",
    ") AND (title:\"dorado*\" OR tag:\"dorado\")", by decide⟩

/-- C9: `normalize_terms("")` is empty, `build_shopify_query([])` is the
empty string, and a configured `shopify_query` on input `""` still performs
the transport call with the empty synthesised query — an unconstrained
search, not an error: its outcome is whatever processing the posted response
yields, and with a well-formed empty response it returns the empty edge list. -/
theorem c9_empty_query_unconstrained :
    normalize_terms "" = [] ∧
    build_shopify_query [] = "" ∧
    (∀ tr : String → Except String JVal,
      shopify_query true tr "" = (shopifyHandleResp (tr ""), [""])) ∧
    (shopify_query true
        (fun _ => .ok (.jobj [("data", .jobj [("products", .jobj [("edges", .jarr [])])])]))
        "").1 = .ok (.jarr []) := by
  refine ⟨by decide, by decide, fun tr => rfl, rfl⟩

theorem accent_comm_table :
    ∀ p ∈ accentTable,
      (p.2.map pyLowerChar).flatMap stripAccentChar = stripAccentChar (pyLowerChar p.1) := by
  decide

/-- Stripping accents, then lower-casing, then stripping again, acts on each
character exactly like lower-casing followed by one stripping pass. -/
theorem strip_lower_comm (c : Char) :
    ((stripAccentChar c).map pyLowerChar).flatMap stripAccentChar =
      stripAccentChar (pyLowerChar c) := by
  cases hf : accentTable.find? (fun x => x.1 == c) with
  | none =>
    rw [stripAccentChar_of_none hf]
    simp
  | some q =>
    have hbeq := List.find?_some hf
    have hq1 : q.1 = c := by
      simp only [] at hbeq
      exact eq_of_beq hbeq
    rw [stripAccentChar_of_find hf, ← hq1]
    exact accent_comm_table q (List.mem_of_find?_eq_some hf)

theorem strip_accents_lower_strip (q : String) :
    strip_accents (pyLower (strip_accents q)) = strip_accents (pyLower q) := by
  unfold strip_accents pyLower
  show String.mk (((q.toList.flatMap stripAccentChar).map pyLowerChar).flatMap stripAccentChar) =
    String.mk ((q.toList.map pyLowerChar).flatMap stripAccentChar)
  apply congrArg String.mk
  rw [List.map_flatMap, List.flatMap_assoc, List.flatMap_map]
  exact flatMap_congr_of_eq _ _ _ (fun c _ => strip_lower_comm c)

/-- C10: `normalize_terms` already lower-cases and strips diacritics, so
pre-stripping the input changes nothing, and the fallback re-normalisation in
`shopify_query` can never produce a different term list: the terms it feeds
to the synthesizer are always exactly `normalize_terms q`. -/
theorem c10_fallback_renormalization_vacuous (q : String) :
    normalize_terms (strip_accents q) = normalize_terms q ∧
    shopify_query_terms q = normalize_terms q := by
  have key : normalize_terms (strip_accents q) = normalize_terms q := by
    unfold normalize_terms normalizeTokens normalizeCleaned
    rw [strip_accents_lower_strip q]
  refine ⟨key, ?_⟩
  show (if normalize_terms q = [] then normalize_terms (strip_accents q)
    else normalize_terms q) = normalize_terms q
  rw [key, ite_self]

theorem toList_inj {s t : String} (h : s.toList = t.toList) : s = t := by
  rw [← mk_toList s, ← mk_toList t, h]

theorem wsFree_chars {w : String} (h : wsFree w = true) :
    ∀ c ∈ w.toList, isWs c = false := by
  rw [wsFree, List.all_eq_true] at h
  intro c hc
  simpa using h c hc

theorem wsFree_removeChar (w : String) (h : wsFree w = true) :
    wsFree (removeChar w '"') = true := by
  unfold wsFree removeChar
  rw [show (String.mk (w.toList.filter fun c => !(c = '"'))).toList =
      w.toList.filter (fun c => !(c = '"')) from rfl]
  rw [List.all_eq_true]
  intro c hc
  simpa using wsFree_chars h c (List.mem_of_mem_filter hc)

/-- On a whitespace-free string, `str.split()` returns the whole string as
the single token (or nothing when it is empty). -/
theorem pySplitWsStr_wsFree (w : String) (h : wsFree w = true) :
    pySplitWsStr w = if w.toList.isEmpty then [] else [w] := by
  unfold pySplitWsStr pySplitWs
  rw [splitWsAux_all_nonws w.toList [] (wsFree_chars h)]
  simp only [List.reverse_nil, List.nil_append]
  by_cases h0 : w.toList.isEmpty
  · rw [if_pos h0, if_pos h0]
    rfl
  · rw [if_neg h0, if_neg h0]
    simp only [List.map_cons, List.map_nil]
    rw [mk_toList]

theorem mkGroup_eq_spec_single (w : String) (hw : wsFree w = true) :
    mkGroup (removeChar w '"') = specGroupOf (.single w) := by
  have hw' : wsFree (removeChar w '"') = true := wsFree_removeChar w hw
  show mkGroup (removeChar w '"') =
    specGroupText (removeChar w '"') (BRAND_HINTS.contains (removeChar w '"'))
  unfold mkGroup specGroupText
  rw [pySplitWsStr_wsFree _ hw']
  by_cases h0 : (removeChar w '"').toList.isEmpty
  · have he : removeChar w '"' = "" := by
      apply toList_inj
      simpa [List.isEmpty_iff] using h0
    rw [he]
    decide
  · rw [if_neg (by simpa using h0)]
    simp only [List.any_cons, List.any_nil, Bool.or_false]
    by_cases hb : removeChar w '"' ∈ BRAND_HINTS <;> simp [hb]

theorem append_space_inj (u v x y : List Char)
    (hu : ∀ c ∈ u, isWs c = false) (hx : ∀ c ∈ x, isWs c = false)
    (h : u ++ ' ' :: v = x ++ ' ' :: y) : u = x ∧ v = y := by
  induction u generalizing x with
  | nil =>
    cases x with
    | nil => simpa using h
    | cons a t =>
      exfalso
      simp only [List.nil_append, List.cons_append, List.cons.injEq] at h
      have := hx a (by simp)
      rw [← h.1] at this
      simp [isWs] at this
  | cons a t ih =>
    cases x with
    | nil =>
      exfalso
      simp only [List.nil_append, List.cons_append, List.cons.injEq] at h
      have := hu a (by simp)
      rw [h.1] at this
      simp [isWs] at this
    | cons b s =>
      simp only [List.cons_append, List.cons.injEq] at h
      obtain ⟨h1, h2⟩ := ih s (fun c hc => hu c (by simp [hc]))
        (fun c hc => hx c (by simp [hc])) h.2
      exact ⟨by rw [h.1, h1], h2⟩

/-- A merged brand phrase decomposes uniquely when both halves are
whitespace-free: the four recognised phrases pin down the two tokens. -/
theorem merged_concrete (a b : String) (ha : wsFree a = true) (hb : wsFree b = true)
    (h : mergePhrases.contains (a ++ " " ++ b) = true) :
    (a = "ray" ∧ b = "ban") ∨ (a = "new" ∧ b = "era") ∨
      (a = "g" ∧ b = "shock") ∨ (a = "tommy" ∧ b = "hilfiger") := by
  have hmem : (a ++ " " ++ b) ∈ mergePhrases := by simpa using h
  have toL : (a ++ " " ++ b).toList = a.toList ++ ' ' :: b.toList := by
    show (a.toList ++ (" " : String).toList) ++ b.toList = a.toList ++ ' ' :: b.toList
    simp
  have hwa := wsFree_chars ha
  have hwb := wsFree_chars hb
  have hdis : (a ++ " " ++ b) = "ray ban" ∨ (a ++ " " ++ b) = "new era" ∨
      (a ++ " " ++ b) = "g shock" ∨ (a ++ " " ++ b) = "tommy hilfiger" := by
    simpa [mergePhrases] using hmem
  rcases hdis with he | he | he | he
  · left
    have hl := congrArg String.toList he
    rw [toL, show ("ray ban" : String).toList =
      ("ray" : String).toList ++ ' ' :: ("ban" : String).toList from rfl] at hl
    obtain ⟨h1, h2⟩ := append_space_inj _ _ _ _ hwa (by decide) hl
    exact ⟨toList_inj h1, toList_inj h2⟩
  · right; left
    have hl := congrArg String.toList he
    rw [toL, show ("new era" : String).toList =
      ("new" : String).toList ++ ' ' :: ("era" : String).toList from rfl] at hl
    obtain ⟨h1, h2⟩ := append_space_inj _ _ _ _ hwa (by decide) hl
    exact ⟨toList_inj h1, toList_inj h2⟩
  · right; right; left
    have hl := congrArg String.toList he
    rw [toL, show ("g shock" : String).toList =
      ("g" : String).toList ++ ' ' :: ("shock" : String).toList from rfl] at hl
    obtain ⟨h1, h2⟩ := append_space_inj _ _ _ _ hwa (by decide) hl
    exact ⟨toList_inj h1, toList_inj h2⟩
  · right; right; right
    have hl := congrArg String.toList he
    rw [toL, show ("tommy hilfiger" : String).toList =
      ("tommy" : String).toList ++ ' ' :: ("hilfiger" : String).toList from rfl] at hl
    obtain ⟨h1, h2⟩ := append_space_inj _ _ _ _ hwa (by decide) hl
    exact ⟨toList_inj h1, toList_inj h2⟩

theorem buildParts_eq_spec :
    ∀ (n : Nat) (terms : List String), terms.length ≤ n →
      (∀ w ∈ terms, wsFree w = true) →
      buildParts terms = (specMerge terms).map specGroupOf := by
  intro n
  induction n with
  | zero =>
    intro terms hlen _
    have : terms = [] := List.eq_nil_of_length_eq_zero (Nat.le_zero.mp hlen)
    subst this
    rfl
  | succ n ih =>
    intro terms hlen hws
    match terms with
    | [] => rfl
    | [w] =>
      simp only [buildParts, specMerge, List.map_cons, List.map_nil]
      rw [mkGroup_eq_spec_single w (hws w (by simp))]
    | w :: w2 :: rest =>
      by_cases hm : mergePhrases.contains (w ++ " " ++ w2) = true
      · have htail : buildParts rest = (specMerge rest).map specGroupOf := by
          apply ih rest ?_ (fun x hx => hws x (by simp [hx]))
          have h2 : rest.length + 2 ≤ n + 1 := by simpa using hlen
          omega
        have hcon := merged_concrete w w2 (hws w (by simp)) (hws w2 (by simp)) hm
        rcases hcon with ⟨rfl, rfl⟩ | ⟨rfl, rfl⟩ | ⟨rfl, rfl⟩ | ⟨rfl, rfl⟩ <;>
          · simp only [buildParts, specMerge, hm, if_true, List.map_cons]
            rw [htail]
            congr 1
      · have hmf : mergePhrases.contains (w ++ " " ++ w2) = false :=
          Bool.not_eq_true _ |>.mp hm
        simp only [buildParts, specMerge, hmf, Bool.false_eq_true, if_false, List.map_cons]
        rw [mkGroup_eq_spec_single w (hws w (by simp))]
        rw [ih (w2 :: rest) (by simpa using Nat.le_of_succ_le_succ hlen)
          (fun x hx => hws x (by simp [hx]))]

/-- C3: for every non-empty list of (whitespace-free) tokens, the synthesised
query is the `" AND "`-join, in token order, of one group per possibly merged
term, each group being `(title:"w*" OR tag:"w")` extended with `OR
vendor:"w"` exactly when the (quote-stripped) term — or either half of a
merged phrase — lies in the brand-hint set, quotes being stripped before
embedding. -/
theorem c3_query_group_shape (terms : List String) (hne : terms ≠ [])
    (hws : ∀ w ∈ terms, wsFree w = true) :
    build_shopify_query terms =
      String.intercalate " AND " ((specMerge terms).map specGroupOf) := by
  unfold build_shopify_query
  rw [if_neg hne, buildParts_eq_spec terms.length terms le_rfl hws]

/-- Witness for C3 at the single-token list `["vans"]`. -/
theorem c3_query_group_shape_witness :
    build_shopify_query ["vans"] =
      String.intercalate " AND " ((specMerge ["vans"]).map specGroupOf) :=
  c3_query_group_shape ["vans"] (by decide) (by decide)

theorem chat_intent_empty (oai : Option LMBehavior)
    (catalog : Nat → String → Except String JVal) (message : String)
    (h : pyStrip message = "") :
    chat_intent oai catalog message = (.ok promptMsg, []) := by
  simp only [chat_intent]
  rw [if_pos h]

theorem chat_intent_first_error (oai : Option LMBehavior)
    (catalog : Nat → String → Except String JVal) (message : String) (e : String)
    (h : ¬ pyStrip message = "")
    (hc : catalog 0 ((intent_from_openai oai (pyStrip message)).1) = .error e) :
    chat_intent oai catalog message =
      (.ok (apologyMsg e), [(intent_from_openai oai (pyStrip message)).1]) := by
  simp only [chat_intent]
  rw [if_neg h]
  simp only [hc]

theorem chat_intent_first_hit (oai : Option LMBehavior)
    (catalog : Nat → String → Except String JVal) (message : String) (v : JVal)
    (h : ¬ pyStrip message = "")
    (hc : catalog 0 ((intent_from_openai oai (pyStrip message)).1) = .ok v)
    (ht : jTruthy v = true) :
    chat_intent oai catalog message =
      ((format_products v).map (finalMsg ((intent_from_openai oai (pyStrip message)).1)),
        [(intent_from_openai oai (pyStrip message)).1]) := by
  simp only [chat_intent]
  rw [if_neg h]
  simp only [hc]
  rw [if_pos ht]

theorem chat_intent_retry_error (oai : Option LMBehavior)
    (catalog : Nat → String → Except String JVal) (message : String) (v : JVal) (e2 : String)
    (h : ¬ pyStrip message = "")
    (hc : catalog 0 ((intent_from_openai oai (pyStrip message)).1) = .ok v)
    (ht : ¬ jTruthy v = true)
    (hc2 : catalog 1 (pyStrip message) = .error e2) :
    chat_intent oai catalog message =
      (.ok (noResultsMsg ((intent_from_openai oai (pyStrip message)).1)),
        [(intent_from_openai oai (pyStrip message)).1, pyStrip message]) := by
  simp only [chat_intent]
  rw [if_neg h]
  simp only [hc]
  rw [if_neg ht]
  simp only [hc2]

theorem chat_intent_retry_hit (oai : Option LMBehavior)
    (catalog : Nat → String → Except String JVal) (message : String) (v v2 : JVal)
    (h : ¬ pyStrip message = "")
    (hc : catalog 0 ((intent_from_openai oai (pyStrip message)).1) = .ok v)
    (ht : ¬ jTruthy v = true)
    (hc2 : catalog 1 (pyStrip message) = .ok v2)
    (ht2 : jTruthy v2 = true) :
    chat_intent oai catalog message =
      ((format_products v2).map (finalMsg ((intent_from_openai oai (pyStrip message)).1)),
        [(intent_from_openai oai (pyStrip message)).1, pyStrip message]) := by
  simp only [chat_intent]
  rw [if_neg h]
  simp only [hc]
  rw [if_neg ht]
  simp only [hc2]
  rw [if_pos ht2]

theorem chat_intent_retry_empty (oai : Option LMBehavior)
    (catalog : Nat → String → Except String JVal) (message : String) (v v2 : JVal)
    (h : ¬ pyStrip message = "")
    (hc : catalog 0 ((intent_from_openai oai (pyStrip message)).1) = .ok v)
    (ht : ¬ jTruthy v = true)
    (hc2 : catalog 1 (pyStrip message) = .ok v2)
    (ht2 : ¬ jTruthy v2 = true) :
    chat_intent oai catalog message =
      (.ok (noResultsMsg ((intent_from_openai oai (pyStrip message)).1)),
        [(intent_from_openai oai (pyStrip message)).1, pyStrip message]) := by
  simp only [chat_intent]
  rw [if_neg h]
  simp only [hc]
  rw [if_neg ht]
  simp only [hc2]
  rw [if_neg ht2]

/-- C1: on a non-empty message, if the first catalog lookup (with the
resolved intent) raises, the handler returns the fixed apology embedding the
error detail and performs no second lookup; if the first lookup returns zero
hits, exactly one more lookup runs with the original trimmed message — an
exception there, or a second empty result, both yield the fixed no-results
message echoing the resolved intent. -/
theorem c1_lookup_fallback (oai : Option LMBehavior)
    (catalog : Nat → String → Except String JVal) (message : String)
    (hne : ¬ pyStrip message = "") :
    (∀ e, catalog 0 ((intent_from_openai oai (pyStrip message)).1) = .error e →
      chat_intent oai catalog message =
        (.ok (apologyMsg e), [(intent_from_openai oai (pyStrip message)).1])) ∧
    (catalog 0 ((intent_from_openai oai (pyStrip message)).1) = .ok (.jarr []) →
      (chat_intent oai catalog message).2 =
        [(intent_from_openai oai (pyStrip message)).1, pyStrip message] ∧
      (∀ e2, catalog 1 (pyStrip message) = .error e2 →
        chat_intent oai catalog message =
          (.ok (noResultsMsg ((intent_from_openai oai (pyStrip message)).1)),
            [(intent_from_openai oai (pyStrip message)).1, pyStrip message])) ∧
      (catalog 1 (pyStrip message) = .ok (.jarr []) →
        chat_intent oai catalog message =
          (.ok (noResultsMsg ((intent_from_openai oai (pyStrip message)).1)),
            [(intent_from_openai oai (pyStrip message)).1, pyStrip message]))) := by
  constructor
  · intro e he
    exact chat_intent_first_error oai catalog message e hne he
  · intro h0
    have ht : ¬ jTruthy (JVal.jarr []) = true := by decide
    refine ⟨?_, ?_, ?_⟩
    · cases hc2 : catalog 1 (pyStrip message) with
      | error e2 =>
        rw [chat_intent_retry_error oai catalog message _ e2 hne h0 ht hc2]
      | ok v2 =>
        by_cases ht2 : jTruthy v2 = true
        · rw [chat_intent_retry_hit oai catalog message _ v2 hne h0 ht hc2 ht2]
        · rw [chat_intent_retry_empty oai catalog message _ v2 hne h0 ht hc2 ht2]
    · intro e2 hc2
      exact chat_intent_retry_error oai catalog message _ e2 hne h0 ht hc2
    · intro hc2
      exact chat_intent_retry_empty oai catalog message _ _ hne h0 ht hc2 (by decide)

/-- Witness for C1: concrete collaborators hitting the
empty-then-exception path. -/
theorem c1_lookup_fallback_witness :
    chat_intent none
        (fun n _ => if n = 0 then .ok (.jarr []) else .error "net down") " gorra " =
      (.ok (noResultsMsg ((intent_from_openai none (pyStrip " gorra ")).1)),
        [(intent_from_openai none (pyStrip " gorra ")).1, pyStrip " gorra "]) :=
  ((c1_lookup_fallback none
      (fun n _ => if n = 0 then .ok (.jarr []) else .error "net down")
      " gorra " (by decide)).2 rfl).2.1 "net down" rfl

/-- C5: `intent_from_openai` never raises (it is a total function of the
collaborator behaviour): unconfigured, it returns the input with no call
attempt; otherwise it makes exactly one call attempt and returns the trimmed
lower-cased model output, falling back to the input whenever that output is
empty or the call fails. -/
theorem c5_intent_resolver_total (oai : Option LMBehavior) (user_text : String) :
    (oai = none → intent_from_openai oai user_text = (user_text, 0)) ∧
    (intent_from_openai oai user_text).2 ≤ 1 ∧
    (¬ oai = none → (intent_from_openai oai user_text).2 = 1) ∧
    (oai = some .failure → (intent_from_openai oai user_text).1 = user_text) ∧
    (∀ o, oai = some (.success o) →
      (intent_from_openai oai user_text).1 =
        (if pyLower (pyStrip (o.getD "")) = "" then user_text
         else pyLower (pyStrip (o.getD "")))) := by
  cases oai with
  | none => simp [intent_from_openai]
  | some b =>
    cases b with
    | failure => simp [intent_from_openai]
    | success o => simp [intent_from_openai]

/-- Witness for C5: a configured collaborator returning `" HOLA "` yields the
trimmed lower-cased intent. -/
theorem c5_intent_resolver_total_witness :
    (intent_from_openai (some (.success (some " HOLA "))) "x").1 =
      (if pyLower (pyStrip ((some " HOLA ").getD "")) = "" then "x"
       else pyLower (pyStrip ((some " HOLA ").getD ""))) :=
  (c5_intent_resolver_total (some (.success (some " HOLA "))) "x").2.2.2.2
    (some " HOLA ") rfl

/-- C6 counterexample: a catalog result whose single item lacks the `"node"`
key makes `format_products` raise `KeyError`, and that exception escapes
`chat_intent` — the handler does not return a response string on this path. -/
theorem c6_malformed_item_escapes :
    (chat_intent none (fun _ _ => .ok (.jarr [.jobj []])) "hola").1 =
      .error "KeyError: 'node'" := rfl

theorem except_bind_ok {ε α β : Type} (a : α) (f : α → Except ε β) :
    (Except.ok a : Except ε α) >>= f = f a := rfl

theorem isOk_exists {ε α : Type} (x : Except ε α) (h : x.isOk = true) :
    ∃ s, x = .ok s := by
  cases x with
  | error er => simp [Except.isOk, Except.toBool] at h
  | ok s => exact ⟨s, rfl⟩

theorem format_one_ok (e : JVal) (h : wellFormedEdge e) :
    ∃ s, format_one e = .ok s := by
  obtain ⟨fs, nf, rfl, hl⟩ := h
  apply isOk_exists
  unfold format_one
  rw [show jGetItem (.jobj fs) "node" = .ok (.jobj nf) by
    simp only [jGetItem, hl]]
  rfl

theorem mapM_format_one_ok :
    ∀ l : List JVal, (∀ e ∈ l, wellFormedEdge e) →
      ∃ ls, l.mapM format_one = Except.ok ls := by
  intro l
  induction l with
  | nil => exact fun _ => ⟨[], rfl⟩
  | cons a t ih =>
    intro h
    obtain ⟨s, hs⟩ := format_one_ok a (h a (by simp))
    obtain ⟨ls, hls⟩ := ih (fun e he => h e (by simp [he]))
    refine ⟨s :: ls, ?_⟩
    rw [List.mapM_cons, hs]
    simp only [except_bind_ok, hls]
    rfl

theorem format_products_ok (v : JVal) (h : wellFormedResult v) :
    ∃ s, format_products v = .ok s := by
  obtain ⟨xs, rfl, hall⟩ := h
  obtain ⟨ls, hls⟩ := mapM_format_one_ok (xs.take 3)
    (fun e he => hall e (List.mem_of_mem_take he))
  refine ⟨String.intercalate "\n\n" ls, ?_⟩
  unfold format_products
  rw [show pySlice3 (.jarr xs) = .ok (xs.take 3) from rfl]
  simp only [except_bind_ok, hls]
  rfl

/-- C6 amended: when every catalog result is a list of well-formed items
(objects carrying an object-valued `"node"` field — the shape promised by the
collaborator interface), no exception escapes `chat_intent`: every path
returns a response string. A malformed item, however, escapes (see the
counterexample). -/
theorem c6_no_escape_wellformed (oai : Option LMBehavior)
    (catalog : Nat → String → Except String JVal) (message : String)
    (hcat : ∀ n q v, catalog n q = .ok v → wellFormedResult v) :
    ∃ s, (chat_intent oai catalog message).1 = .ok s := by
  by_cases h0 : pyStrip message = ""
  · exact ⟨promptMsg, by rw [chat_intent_empty oai catalog message h0]⟩
  · cases hc : catalog 0 ((intent_from_openai oai (pyStrip message)).1) with
    | error e =>
      exact ⟨apologyMsg e, by rw [chat_intent_first_error oai catalog message e h0 hc]⟩
    | ok v =>
      by_cases ht : jTruthy v = true
      · obtain ⟨s, hs⟩ := format_products_ok v (hcat 0 _ v hc)
        refine ⟨finalMsg ((intent_from_openai oai (pyStrip message)).1) s, ?_⟩
        rw [chat_intent_first_hit oai catalog message v h0 hc ht]
        rw [show ((format_products v).map
          (finalMsg ((intent_from_openai oai (pyStrip message)).1)),
          [(intent_from_openai oai (pyStrip message)).1]).1 =
            (format_products v).map
              (finalMsg ((intent_from_openai oai (pyStrip message)).1)) from rfl]
        rw [hs]
        rfl
      · cases hc2 : catalog 1 (pyStrip message) with
        | error e2 =>
          exact ⟨noResultsMsg _, by
            rw [chat_intent_retry_error oai catalog message v e2 h0 hc ht hc2]⟩
        | ok v2 =>
          by_cases ht2 : jTruthy v2 = true
          · obtain ⟨s, hs⟩ := format_products_ok v2 (hcat 1 _ v2 hc2)
            refine ⟨finalMsg ((intent_from_openai oai (pyStrip message)).1) s, ?_⟩
            rw [chat_intent_retry_hit oai catalog message v v2 h0 hc ht hc2 ht2]
            rw [show ((format_products v2).map
              (finalMsg ((intent_from_openai oai (pyStrip message)).1)),
              [(intent_from_openai oai (pyStrip message)).1, pyStrip message]).1 =
                (format_products v2).map
                  (finalMsg ((intent_from_openai oai (pyStrip message)).1)) from rfl]
            rw [hs]
            rfl
          · exact ⟨noResultsMsg _, by
              rw [chat_intent_retry_empty oai catalog message v v2 h0 hc ht hc2 ht2]⟩

/-- Witness for C6 (amended) with an always-empty well-formed catalog. -/
theorem c6_no_escape_wellformed_witness :
    ∃ s, (chat_intent none (fun _ _ => .ok (.jarr [])) "hola").1 = .ok s :=
  c6_no_escape_wellformed none (fun _ _ => .ok (.jarr [])) "hola" (by
    intro n q v h
    injection h with h2
    exact ⟨[], h2.symm, by simp⟩)

end Suntime
